import Mathlib

/-!
# Verification of the MOTSP / NSGA-II notebook

Shallow embedding of the `MOTSP` problem class of `notebooks/NSGA-II.ipynb`
(construction of random symmetric distance matrices, `total_distance`,
`_evaluate`) together with spec-level models of the parts delegated to the
pymoo library (evaluation counting, non-dominated front extraction, the
seeded `minimize` run).  Distances are modelled as rationals; numpy's global
random stream is modelled as an explicitly threaded linear-congruential
state, since only its statefulness (not its exact distribution) is at issue.
-/

/-- A numpy 2-d float array, embedded as a total index function. -/
def Mat : Type := Nat → Nat → ℚ

/-- The all-zero matrix (used as the out-of-range default for `List.getD`). -/
def zeroM : Mat := fun _ _ => 0

/-- `np.tril(d)`: keep the lower triangle including the diagonal. -/
def tril0 (m : Mat) : Mat := fun i j => if j ≤ i then m i j else 0

/-- `np.tril(d, -1)`: keep the strictly lower triangle. -/
def trilm1 (m : Mat) : Mat := fun i j => if j < i then m i j else 0

/-- `.T`: matrix transpose. -/
def transposeM (m : Mat) : Mat := fun i j => m j i

/-- Elementwise matrix addition. -/
def addM (a b : Mat) : Mat := fun i j => a i j + b i j

/-- `d[np.diag_indices(n)] = 0`: zero out the diagonal. -/
def zeroDiag (m : Mat) : Mat := fun i j => if i = j then 0 else m i j

/-- The symmetrisation performed in `MOTSP.__init__`:
`d = np.tril(d) + np.tril(d, -1).T` followed by zeroing the diagonal. -/
def symFromRaw (r : Mat) : Mat := zeroDiag (addM (tril0 r) (transposeM (trilm1 r)))

/-- Modelled from the spec: numpy's global pseudo-random stream (`np.random`)
is not part of the repository; it is modelled as a linear-congruential
step on a `Nat` state below 2^31. -/
def stepState (s : Nat) : Nat := (s * 1103515245 + 12345) % 2147483648

/-- Iterate the random stream `k` times from state `s`. -/
def iterState (s : Nat) : Nat → Nat
  | 0 => s
  | k + 1 => stepState (iterState s k)

/-- Modelled from the spec: the `k`-th float drawn by `np.random.rand` from
global state `g`, a rational in `[0, 1)`. -/
def randAt (g k : Nat) : ℚ := (iterState g (k + 1) : ℚ) / 2147483648

/-- The raw matrix `d = np.random.rand(n, n)` for the `idx`-th objective:
entry `(i, j)` is the `(idx*n*n + i*n + j)`-th draw from the global stream
(row-major, matrices drawn one after the other). -/
def rawMat (g n idx : Nat) : Mat := fun i j => randAt g (idx * n * n + i * n + j)

/-- The `MOTSP` problem object: city count and the per-objective distance
matrices built in `__init__` (bounds `xl`/`xu` are pymoo bookkeeping with no
role in the claims). -/
@[ext]
structure MOTSP where
  n_cities : Nat
  distances : List Mat

/-- `MOTSP.__init__(n_cities, n_obj)` with ambient global random state `g`:
for each objective draw a random matrix, symmetrise it and zero its
diagonal.  The source performs no validation of `n_cities` or `n_obj`. -/
def MOTSP.init (g n_cities n_obj : Nat) : MOTSP :=
  { n_cities := n_cities
    distances := (List.range n_obj).map (fun idx => symFromRaw (rawMat g n_cities idx)) }

/-- `self.distances[d]`, total via the zero default. -/
def MOTSP.dist (p : MOTSP) (d : Nat) : Mat := p.distances.getD d zeroM

/-- `MOTSP.total_distance(self, x, d)`: `t = 0`, then for `i in range(1, len(x))`
accumulate `self.distances[d][x[i-1], x[i]]`. -/
def MOTSP.total_distance (p : MOTSP) (x : List Nat) (d : Nat) : ℚ :=
  (List.range' 1 (x.length - 1)).foldl
    (fun t i => t + p.dist d (x.getD (i - 1) 0) (x.getD i 0)) 0

/-- `np.sort(x)`: ascending sort of the route (extensionally equal to any
comparison sort). -/
def sortedRoute (x : List Nat) : List Nat := x.insertionSort (· ≤ ·)

/-- `np.sum(np.arange(self.n_cities) != np.sort(x))`: the number of positions
where the sorted route differs from the identity permutation `0..n-1`. -/
def mismatchCount (n : Nat) (x : List Nat) : Nat :=
  (((List.range n).zip (sortedRoute x)).countP (fun q => q.1 ≠ q.2))

/-- `MOTSP._evaluate(self, x, out)`: returns the pair written to
`(out["F"], out["G"])` — the per-objective path costs and the constraint
value `c = -np.sum(np.arange(self.n_cities) != np.sort(x))`. -/
def MOTSP._evaluate (p : MOTSP) (x : List Nat) : List ℚ × ℚ :=
  ((List.range p.distances.length).map (fun i => p.total_distance x i),
    -(mismatchCount p.n_cities x : ℚ))

/-- Modelled from the spec: pymoo's `Evaluator` (not in the repository) keeps
a process-wide evaluation counter; the mutable evaluation state is the
problem object together with that counter. -/
structure EvalState where
  problem : MOTSP
  n_eval : Nat

/-- Modelled from the spec: scoring one individual calls `_evaluate` (from
the source) and increments the evaluation counter once. -/
def evalStep (s : EvalState) (x : List Nat) : (List ℚ × ℚ) × EvalState :=
  (s.problem._evaluate x, { problem := s.problem, n_eval := s.n_eval + 1 })

/-- Pareto domination on objective vectors, from the spec's definition:
all components `≤` and at least one strictly `<`. -/
def dominates (a b : List ℚ) : Bool :=
  (a.zip b).all (fun q => q.1 ≤ q.2) && (a.zip b).any (fun q => q.1 < q.2)

/-- Modelled from the spec: pymoo's non-dominated-set extraction (not in the
repository) — the members of the population not dominated by any member. -/
def nondomFront (pop : List (List ℚ)) : List (List ℚ) :=
  pop.filter (fun x => !(pop.any (fun y => dominates y x)))

/-- Modelled from the spec/numpy: an integer draw below `bound` from the
stream, used by the permutation sampler. -/
def drawNat (s bound : Nat) : Nat × Nat :=
  (stepState s % bound, stepState s)

/-- Modelled from the spec: `perm_random` sampling (pymoo, not in the
repository) — repeatedly pick a random remaining city.  The fuel argument
equals the number of remaining cities. -/
def samplePermAux : Nat → List Nat → Nat → List Nat × Nat
  | 0, _, s => ([], s)
  | _ + 1, [], s => ([], s)
  | fuel + 1, c :: cs, s =>
    let js := drawNat s (c :: cs).length
    let rest := (c :: cs).eraseIdx js.1
    let r := samplePermAux fuel rest js.2
    ((c :: cs).getD js.1 0 :: r.1, r.2)

/-- Modelled from the spec: sample one random permutation of `0..n-1`. -/
def samplePerm (s n : Nat) : List Nat × Nat :=
  samplePermAux n (List.range n) s

/-- Modelled from the spec: sample `k` individuals, threading the stream. -/
def samplePop (s n : Nat) : Nat → List (List Nat) × Nat
  | 0 => ([], s)
  | k + 1 =>
    let pr := samplePerm s n
    let rest := samplePop pr.2 n k
    (pr.1 :: rest.1, rest.2)

/-- A `GenerationRecord` from the spec: generation index, cumulative
evaluation count, and the current Pareto front's objective vectors. -/
structure GenRecord where
  gen : Nat
  n_eval : Nat
  front : List (List ℚ)
deriving DecidableEq

/-- Modelled from the spec: the run configuration recognised by the
notebook's `NSGA2`/`minimize` calls (duplicate elimination is enabled, as
in the notebook). -/
structure Config where
  n_cities : Nat
  n_obj : Nat
  pop_size : Nat
  n_offsprings : Nat
  cross_prob : ℚ
  n_gen : Nat

/-- An evaluated population member: route, objective vector, constraint. -/
structure Indiv where
  route : List Nat
  F : List ℚ
  G : ℚ
deriving DecidableEq

/-- Default member for total index reads. -/
def dummyInd : Indiv := ⟨[], [], 0⟩

/-- Score one individual through the source's `_evaluate`. -/
def evalInd (p : MOTSP) (x : List Nat) : Indiv :=
  let r := p._evaluate x
  ⟨x, r.1, r.2⟩

/-- Modelled from the spec: feasibility — non-positive constraint score. -/
def feasible (a : Indiv) : Bool := a.G ≤ 0

/-- Modelled from the spec: constrained domination — any feasible
individual dominates any infeasible one; among infeasible individuals the
lower violation dominates; among feasible ones, Pareto domination. -/
def cdom (a b : Indiv) : Bool :=
  if feasible a && !(feasible b) then true
  else if !(feasible a) && feasible b then false
  else if !(feasible a) && !(feasible b) then a.G < b.G
  else dominates a.F b.F

/-- Members of a population dominated by no member (front 1). -/
def nondomSet (pop : List Indiv) : List Indiv :=
  pop.filter (fun x => !(pop.any (fun y => cdom y x)))

/-- Modelled from the spec: partition into non-dominated fronts by
iterative removal (front k is the non-dominated set after removing fronts
1..k-1).  The fuel — the population size at the first call — bounds the
number of removal rounds; each round removes the non-empty front 1. -/
def partFronts : Nat → List Indiv → List (List Indiv)
  | 0, pop => if pop.isEmpty then [] else [pop]
  | fuel + 1, pop =>
    if pop.isEmpty then []
    else
      let f1 := nondomSet pop
      if f1.isEmpty then [pop]
      else f1 :: partFronts fuel (pop.filter (fun x => !(f1.contains x)))

/-- A stable insertion sort on a boolean order, used for the engine's
orderings (argsort-style). -/
def insertB {α : Type} (le : α → α → Bool) (a : α) : List α → List α
  | [] => [a]
  | b :: l => if le a b then a :: b :: l else b :: insertB le a l

/-- Sort a list by a boolean order. -/
def sortB {α : Type} (le : α → α → Bool) : List α → List α
  | [] => []
  | a :: l => insertB le a (sortB le l)

/-- Objective `m` of a member, total. -/
def objVal (x : Indiv) (m : Nat) : ℚ := x.F.getD m 0

/-- Positions of a front's members sorted by objective `m` (pairs of
original index and objective value). -/
def sortedIdx (f : List Indiv) (m : Nat) : List (Nat × ℚ) :=
  sortB (fun a b => a.2 ≤ b.2)
    ((List.range f.length).map (fun i => (i, objVal (f.getD i dummyInd) m)))

/-- Modelled from the spec: one objective's crowding contribution at a
sorted position — boundary positions are infinite (encoded as a `true`
flag), interior ones get the normalised gap between the two neighbours
(the normalising division yields 0 when the objective's spread is zero,
matching a zero gap). -/
def crowdGap (s : List (Nat × ℚ)) (pos : Nat) : Bool × ℚ :=
  if pos = 0 || pos = s.length - 1 then (true, 0)
  else
    let lo := (s.getD 0 (0, 0)).2
    let hi := (s.getD (s.length - 1) (0, 0)).2
    let prev := (s.getD (pos - 1) (0, 0)).2
    let next := (s.getD (pos + 1) (0, 0)).2
    (false, (next - prev) / (hi - lo))

/-- Modelled from the spec: crowding distance of front member `i` — the sum
over objectives of the normalised neighbour gaps, infinite when the member
is a boundary individual in any objective. -/
def crowdOf (nObj : Nat) (f : List Indiv) (i : Nat) : Bool × ℚ :=
  (List.range nObj).foldl
    (fun acc m =>
      let s := sortedIdx f m
      let gp := crowdGap s (s.findIdx (fun q => q.1 == i))
      (acc.1 || gp.1, acc.2 + gp.2))
    (false, 0)

/-- Descending comparison of crowding values (infinite first). -/
def crowdGe (a b : Bool × ℚ) : Bool :=
  if a.1 then true else if b.1 then false else b.2 ≤ a.2

/-- Modelled from the spec: from a partially included front, take the `k`
members of greatest crowding distance. -/
def takeCrowded (nObj : Nat) (f : List Indiv) (k : Nat) : List Indiv :=
  let order := sortB (fun i j => crowdGe (crowdOf nObj f i) (crowdOf nObj f j))
    (List.range f.length)
  (order.take k).map (fun i => f.getD i dummyInd)

/-- Modelled from the spec: fill the next generation front-by-front until a
whole front would overflow `pop_size`; complete from that front by
descending crowding distance. -/
def survive (nObj pop_size : Nat) : List (List Indiv) → List Indiv → List Indiv
  | [], acc => acc
  | f :: fs, acc =>
    if acc.length + f.length ≤ pop_size then survive nObj pop_size fs (acc ++ f)
    else acc ++ takeCrowded nObj f (pop_size - acc.length)

/-- Environmental selection of the merged parent+offspring population. -/
def envSelect (nObj pop_size : Nat) (merged : List Indiv) : List Indiv :=
  survive nObj pop_size (partFronts merged.length merged) []

/-- Non-domination rank of a member: the index of its front. -/
def rankOf (fronts : List (List Indiv)) (x : Indiv) : Nat :=
  fronts.findIdx (fun f => f.contains x)

/-- Crowding distance of a member within its own front. -/
def crowdInFronts (nObj : Nat) (fronts : List (List Indiv)) (x : Indiv) : Bool × ℚ :=
  let f := fronts.getD (rankOf fronts x) []
  crowdOf nObj f (f.findIdx (fun y => y == x))

/-- Modelled from the spec: binary tournament parent selection — two
members drawn from the stream; the lower non-domination rank wins, ties
decided by greater crowding distance. -/
def tourney (nObj : Nat) (fronts : List (List Indiv)) (pop : List Indiv) (s : Nat) :
    Indiv × Nat :=
  let d1 := drawNat s pop.length
  let d2 := drawNat d1.2 pop.length
  let a := pop.getD d1.1 dummyInd
  let b := pop.getD d2.1 dummyInd
  let ra := rankOf fronts a
  let rb := rankOf fronts b
  (if ra < rb then a
    else if rb < ra then b
    else if crowdGe (crowdInFronts nObj fronts a) (crowdInFronts nObj fronts b) then a
    else b, d2.2)

/-- Undirected adjacencies of an (open) route. -/
def edges (route : List Nat) : List (Nat × Nat) := route.zip route.tail

/-- Neighbours of a city in a route. -/
def nbrs (route : List Nat) (c : Nat) : List Nat :=
  (edges route).foldr
    (fun e acc => (if e.1 = c then [e.2] else []) ++ (if e.2 = c then [e.1] else []) ++ acc)
    []

/-- Neighbours of `c` shared by both parents. -/
def sharedNbrs (p1 p2 : List Nat) (c : Nat) : List Nat :=
  (nbrs p1 c).filter (fun d => (nbrs p2 c).contains d)

/-- All neighbours of `c` in either parent. -/
def allNbrs (p1 p2 : List Nat) (c : Nat) : List Nat := (nbrs p1 c ++ nbrs p2 c).dedup

/-- Number of still-unused neighbours of a candidate city. -/
def remCount (p1 p2 unused : List Nat) (d : Nat) : Nat :=
  ((allNbrs p1 p2 d).filter (fun e => unused.contains e)).length

/-- Minimum of a list of naturals (0 on the empty list). -/
def minOfList : List Nat → Nat
  | [] => 0
  | a :: l => l.foldl Nat.min a

/-- Modelled from the spec: among candidate next cities pick one with the
fewest remaining neighbours, exact ties broken by a random draw. -/
def pickShared (p1 p2 unused cands : List Nat) (s : Nat) : Nat × Nat :=
  let m := minOfList (cands.map (remCount p1 p2 unused))
  let ties := cands.filter (fun d => remCount p1 p2 unused d == m)
  let dr := drawNat s ties.length
  (ties.getD dr.1 0, dr.2)

/-- Modelled from the spec: the edge-recombination extension loop — extend
by an unused neighbour of the current city shared by both parents (fewest
remaining neighbours, random exact-tie break); fall back to a random
unused city when no such neighbour is available. -/
def erxAux : Nat → List Nat → List Nat → Nat → List Nat → Nat → List Nat × Nat
  | 0, _, _, _, _, s => ([], s)
  | fuel + 1, p1, p2, cur, unused, s =>
    if unused.isEmpty then ([], s)
    else
      let cands := (sharedNbrs p1 p2 cur).filter (fun d => unused.contains d)
      let pick :=
        if cands.isEmpty then
          let dr := drawNat s unused.length
          (unused.getD dr.1 0, dr.2)
        else pickShared p1 p2 unused cands s
      let rest := erxAux fuel p1 p2 pick.1 (unused.erase pick.1) pick.2
      (pick.1 :: rest.1, rest.2)

/-- Modelled from the spec: edge-recombination crossover of two parent
permutations, started from the first parent's first city. -/
def erx (p1 p2 : List Nat) (s : Nat) : List Nat × Nat :=
  let start := p1.headD 0
  let rest := erxAux p1.length p1 p2 start (p1.erase start) s
  (start :: rest.1, rest.2)

/-- Modelled from the spec: crossover applied with the configured
probability, otherwise the first parent is copied unchanged. -/
def crossover (prob : ℚ) (p1 p2 : List Nat) (s : Nat) : List Nat × Nat :=
  let s1 := stepState s
  if ((s1 : ℚ) / 2147483648) < prob then erx p1 p2 s1 else (p1, s1)

/-- Modelled from the spec: inversion mutation — two random cut points,
the segment between them reversed. -/
def mutate (x : List Nat) (s : Nat) : List Nat × Nat :=
  let d1 := drawNat s x.length
  let d2 := drawNat d1.2 x.length
  let lo := Nat.min d1.1 d2.1
  let hi := Nat.max d1.1 d2.1
  (x.take lo ++ ((x.drop lo).take (hi + 1 - lo)).reverse ++ x.drop (hi + 1), d2.2)

/-- One offspring: two tournament-selected parents, crossover, mutation,
evaluation through the source's `_evaluate`. -/
def mkOffspring (p : MOTSP) (cfg : Config) (fronts : List (List Indiv))
    (pop : List Indiv) (s : Nat) : Indiv × Nat :=
  let t1 := tourney cfg.n_obj fronts pop s
  let t2 := tourney cfg.n_obj fronts pop t1.2
  let cx := crossover cfg.cross_prob t1.1.route t2.1.route t2.2
  let mu := mutate cx.1 cx.2
  (evalInd p mu.1, mu.2)

/-- Modelled from the spec: duplicate elimination — an offspring whose
route already exists in the combined parent+offspring set is discarded and
resampled, up to a bounded number of attempts, after which the duplicate
is accepted. -/
def uniqueOffspring : Nat → MOTSP → Config → List (List Indiv) → List Indiv →
    List (List Nat) → Nat → Indiv × Nat
  | 0, p, cfg, fronts, pop, _, s => mkOffspring p cfg fronts pop s
  | a + 1, p, cfg, fronts, pop, existing, s =>
    let c := mkOffspring p cfg fronts pop s
    if existing.contains c.1.route then uniqueOffspring a p cfg fronts pop existing c.2
    else c

/-- Produce `count` offspring, threading the stream and the set of routes
already present. -/
def offspringLoop : Nat → MOTSP → Config → List (List Indiv) → List Indiv →
    List (List Nat) → Nat → List Indiv × Nat
  | 0, _, _, _, _, _, s => ([], s)
  | k + 1, p, cfg, fronts, pop, existing, s =>
    let c := uniqueOffspring 10 p cfg fronts pop existing s
    let rest := offspringLoop k p cfg fronts pop (existing ++ [c.1.route]) c.2
    (c.1 :: rest.1, rest.2)

/-- One generation: rank the current population, generate and evaluate
`n_offsprings` offspring, then environmental selection on the merged
population. -/
def generationStep (p : MOTSP) (cfg : Config) (st : List Indiv × Nat) :
    List Indiv × Nat :=
  let fronts := partFronts st.1.length st.1
  let off := offspringLoop cfg.n_offsprings p cfg fronts st.1
    (st.1.map (fun x => x.route)) st.2
  (envSelect cfg.n_obj cfg.pop_size (st.1 ++ off.1), off.2)

/-- Modelled from the spec: the generational loop — run the remaining
generations from the given state, appending one `GenerationRecord` per
generation (index, cumulative evaluation count, current front's objective
vectors) and returning the final population. -/
def runLoop (p : MOTSP) (cfg : Config) :
    Nat → List Indiv × Nat → Nat → List GenRecord × List Indiv
  | 0, st, _ => ([], st.1)
  | k + 1, st, gidx =>
    let st' := generationStep p cfg st
    let r : GenRecord :=
      ⟨gidx, cfg.pop_size + gidx * cfg.n_offsprings, (nondomSet st'.1).map (fun x => x.F)⟩
    let rest := runLoop p cfg k st' (gidx + 1)
    (r :: rest.1, rest.2)

/-- The structured result of a run: the full generation history and the
final Pareto front as (route, objective vector) pairs. -/
structure RunResult where
  history : List GenRecord
  front : List (List Nat × List ℚ)
deriving DecidableEq

/-- Modelled from the spec: `minimize` (pymoo, not in the repository) —
seed the library stream, sample and evaluate the initial population,
record generation 0, run the generational loop to the configured limit,
and return the history together with the final Pareto front. -/
def minimizeModel (p : MOTSP) (seed : Nat) (cfg : Config) : RunResult :=
  let sp := samplePop seed p.n_cities cfg.pop_size
  let pop0 := sp.1.map (evalInd p)
  let rec0 : GenRecord := ⟨0, cfg.pop_size, (nondomSet pop0).map (fun x => x.F)⟩
  let lp := runLoop p cfg cfg.n_gen (pop0, sp.2) 1
  { history := rec0 :: lp.1
    front := (nondomSet lp.2).map (fun x => (x.route, x.F)) }

/-- One whole optimisation as run by the notebook: construct the problem
from the ambient (unseeded) global random state `g`, then run the whole
seeded `minimize` loop; the output is the full generation history and the
final Pareto front. -/
def fullRun (g seed : Nat) (cfg : Config) : RunResult :=
  minimizeModel (MOTSP.init g cfg.n_cities cfg.n_obj) seed cfg

/-! ## Helper lemmas -/

lemma foldl_add_map_sum (f : Nat → ℚ) (l : List Nat) :
    ∀ a : ℚ, l.foldl (fun t i => t + f i) a = a + (l.map f).sum := by
  induction l with
  | nil => intro a; simp
  | cons i l ih => intro a; simp [ih, add_assoc]

lemma sum_map_range'_Ico (f : Nat → ℚ) :
    ∀ k s : Nat, ((List.range' s k).map f).sum = ∑ j in Finset.Ico s (s + k), f j := by
  intro k
  induction k with
  | zero => intro s; simp
  | succ k ih =>
    intro s
    rw [List.range'_succ, List.map_cons, List.sum_cons, ih (s + 1)]
    have hb : s + 1 + k = s + (k + 1) := by omega
    rw [hb, Finset.sum_eq_sum_Ico_succ_bot (show s < s + (k + 1) by omega) f]

lemma getD_map_range {α : Type} (f : Nat → α) (m k : Nat) (d : α) :
    ((List.range m).map f).getD k d = if k < m then f k else d := by
  by_cases h : k < m
  · simp [List.getD_eq_getElem?_getD, List.getElem?_range h, h]
  · have hle : ((List.range m).map f).length ≤ k := by simp; omega
    simp [List.getD_eq_getElem?_getD, List.getElem?_eq_none hle, h]

lemma symFromRaw_symm_apply (r : Mat) (i j : Nat) : symFromRaw r i j = symFromRaw r j i := by
  unfold symFromRaw zeroDiag addM tril0 transposeM trilm1
  rcases Nat.lt_trichotomy i j with h | h | h
  · have h1 : ¬ j ≤ i := by omega
    have h2 : i ≠ j := by omega
    have h3 : ¬ j < i := by omega
    have h4 : i ≤ j := by omega
    simp [h1, h2, h2.symm, h3, h4, h]
  · subst h; simp
  · have h1 : j ≤ i := by omega
    have h2 : i ≠ j := by omega
    have h3 : ¬ i < j := by omega
    have h4 : ¬ i ≤ j := by omega
    simp [h1, h2, h2.symm, h3, h4, h]

lemma symFromRaw_diag_apply (r : Mat) (i : Nat) : symFromRaw r i i = 0 := by
  unfold symFromRaw zeroDiag
  simp

lemma total_distance_sum (p : MOTSP) (x : List Nat) (i : Nat) :
    p.total_distance x i =
      ∑ k in Finset.Ico 1 x.length, p.dist i (x.getD (k - 1) 0) (x.getD k 0) := by
  unfold MOTSP.total_distance
  rw [foldl_add_map_sum (fun k => p.dist i (x.getD (k - 1) 0) (x.getD k 0)), zero_add,
    sum_map_range'_Ico]
  rcases Nat.eq_zero_or_pos x.length with h | h
  · rw [h]; simp
  · have hlen : 1 + (x.length - 1) = x.length := by omega
    rw [hlen]

/-! ## Claim theorems (first batch) -/

/-- C3: each objective of the evaluation is the open-path cost: the sum of
`distance_i[route[k-1]][route[k]]` for `k = 1 .. N-1`; no edge from the last
city back to the first is added. -/
theorem total_distance_open_path (p : MOTSP) (x : List Nat) (i : Nat) :
    p.total_distance x i =
      ∑ k in Finset.Ico 1 x.length, p.dist i (x.getD (k - 1) 0) (x.getD k 0) :=
  total_distance_sum p x i

/-- C5: the constraint value written by `_evaluate` is always `≤ 0` (it is
the negation of a count), for every input vector, malformed ones included —
so under pymoo's non-positive-means-feasible convention every individual is
classified as feasible. -/
theorem evaluate_constraint_nonpos (p : MOTSP) (x : List Nat) :
    (p._evaluate x).2 ≤ 0 := by
  unfold MOTSP._evaluate
  simp only
  exact neg_nonpos.mpr (by positivity)

/-- C6: every distance matrix built by `MOTSP.__init__` is symmetric with a
zero diagonal (stated for every objective index and every pair of indices;
the out-of-range default matrix is the zero matrix, which also satisfies
both properties).  Nothing in the embedded code writes to the matrices
after construction. -/
theorem init_distances_symm_zero_diag (g n m k i j : Nat) :
    (MOTSP.init g n m).dist k i j = (MOTSP.init g n m).dist k j i ∧
      (MOTSP.init g n m).dist k i i = 0 := by
  unfold MOTSP.dist MOTSP.init
  simp only
  rw [getD_map_range]
  by_cases h : k < m
  · simp only [h, if_pos]
    exact ⟨symFromRaw_symm_apply _ i j, symFromRaw_diag_apply _ i⟩
  · simp only [h, if_neg, ite_false]
    exact ⟨rfl, rfl⟩

/-- C9 (counterexample): constructing `MOTSP` with `n_cities = 1 < 2`
succeeds and yields a problem object — no configuration error is raised at
construction, contradicting the fail-fast claim. -/
theorem init_invalid_config_accepted_cex :
    (MOTSP.init 0 1 1).n_cities = 1 ∧ (MOTSP.init 0 1 1).distances.length = 1 := by
  constructor
  · rfl
  · simp [MOTSP.init]

/-- C9 (amended): `MOTSP.__init__` performs no configuration validation:
for every city count (including values below 2) and objective count it
returns a problem object with exactly the requested fields. -/
theorem init_no_validation (g n m : Nat) :
    (MOTSP.init g n m).n_cities = n ∧ (MOTSP.init g n m).distances.length = m := by
  constructor
  · rfl
  · simp [MOTSP.init]

/-! ## Permutation characterisation of the constraint -/

lemma eq_of_zip_fst_eq_snd :
    ∀ (l₁ l₂ : List Nat), l₁.length = l₂.length →
      (∀ q ∈ l₁.zip l₂, q.1 = q.2) → l₁ = l₂
  | [], [], _, _ => rfl
  | [], _ :: _, h, _ => by simp at h
  | _ :: _, [], h, _ => by simp at h
  | a :: l₁, b :: l₂, h, hq => by
    have h1 : a = b := hq (a, b) (by rw [List.zip_cons_cons]; exact List.mem_cons_self _ _)
    have h2 : l₁ = l₂ :=
      eq_of_zip_fst_eq_snd l₁ l₂ (by simpa using h)
        (fun q hh => hq q (by rw [List.zip_cons_cons]; exact List.mem_cons_of_mem _ hh))
    rw [h1, h2]

lemma zip_self_fst_eq_snd :
    ∀ (l : List Nat) (q : Nat × Nat), q ∈ l.zip l → q.1 = q.2
  | [], q, hq => by simp at hq
  | a :: l, q, hq => by
    rw [List.zip_cons_cons] at hq
    rcases List.mem_cons.mp hq with h | h
    · rw [h]
    · exact zip_self_fst_eq_snd l q h

/-- C4: for a route of the problem's length, the constraint score of
`_evaluate` is zero iff the route is a permutation of `0..n_cities-1`. -/
theorem evaluate_constraint_zero_iff (p : MOTSP) (x : List Nat)
    (h : x.length = p.n_cities) :
    (p._evaluate x).2 = 0 ↔ x.Perm (List.range p.n_cities) := by
  have hshow : (p._evaluate x).2 = -(mismatchCount p.n_cities x : ℚ) := rfl
  rw [hshow, neg_eq_zero, Nat.cast_eq_zero]
  unfold mismatchCount
  rw [List.countP_eq_zero]
  constructor
  · intro hz
    have hperm : x.Perm (sortedRoute x) := (List.perm_insertionSort _ x).symm
    have hlen : (List.range p.n_cities).length = (sortedRoute x).length := by
      rw [List.length_range]
      unfold sortedRoute
      rw [List.length_insertionSort, h]
    have heq : List.range p.n_cities = sortedRoute x :=
      eq_of_zip_fst_eq_snd _ _ hlen (fun q hq => by simpa using hz q hq)
    exact hperm.trans (by rw [← heq])
  · intro hp
    have hsorted : List.Sorted (· ≤ ·) (sortedRoute x) := List.sorted_insertionSort _ x
    have hperm2 : (sortedRoute x).Perm (List.range p.n_cities) :=
      (List.perm_insertionSort _ x).trans hp
    have heq : sortedRoute x = List.range p.n_cities :=
      List.eq_of_perm_of_sorted hperm2 hsorted (List.sorted_le_range _)
    intro q hq
    rw [heq] at hq
    simpa using zip_self_fst_eq_snd _ q hq

/-- C4 witness: at `n_cities = 2` and the concrete route `[1, 0]`. -/
theorem evaluate_constraint_zero_iff_witness :
    ([1, 0] : List Nat).length = (MOTSP.mk 2 []).n_cities ∧
      (((MOTSP.mk 2 [])._evaluate [1, 0]).2 = 0 ↔
        ([1, 0] : List Nat).Perm (List.range (MOTSP.mk 2 []).n_cities)) :=
  ⟨rfl, evaluate_constraint_zero_iff (MOTSP.mk 2 []) [1, 0] rfl⟩

/-- C1: evaluating the malformed individual `[0, 0]` on a 2-city problem
yields constraint score `-1`, i.e. a strictly negative value that pymoo's
non-positive-means-feasible convention classifies as feasible — the code
never produces the positive violation score the spec (and the code's own
comment) call for. -/
theorem evaluate_malformed_negative :
    ((MOTSP.init 0 2 1)._evaluate [0, 0]).2 = -1 := by decide

/-! ## Non-negativity of the objective vector -/

lemma randAt_nonneg (g k : Nat) : 0 ≤ randAt g k := by
  unfold randAt
  positivity

lemma symFromRaw_nonneg (r : Mat) (hr : ∀ i j, 0 ≤ r i j) (i j : Nat) :
    0 ≤ symFromRaw r i j := by
  unfold symFromRaw zeroDiag addM tril0 transposeM trilm1
  by_cases hij : i = j
  · simp [hij]
  · simp only [hij, if_false]
    apply add_nonneg
    · split
      · exact hr i j
      · exact le_refl 0
    · split
      · exact hr j i
      · exact le_refl 0

lemma init_dist_nonneg (g n m d i j : Nat) : 0 ≤ (MOTSP.init g n m).dist d i j := by
  unfold MOTSP.dist MOTSP.init
  simp only
  rw [getD_map_range]
  split
  · exact symFromRaw_nonneg _ (fun i j => randAt_nonneg g _) i j
  · simp [zeroM]

lemma init_total_distance_nonneg (g n m : Nat) (x : List Nat) (i : Nat) :
    0 ≤ (MOTSP.init g n m).total_distance x i := by
  rw [total_distance_sum]
  exact Finset.sum_nonneg (fun k _ => init_dist_nonneg g n m i _ _)

/-- C7: the objective vector returned by `_evaluate` on a constructed
problem has length exactly the number of distance matrices (`n_obj`), and
every entry (read totally, with default `0`) is non-negative. -/
theorem evaluate_objectives_length_nonneg (g n m : Nat) (x : List Nat) (k : Nat) :
    ((MOTSP.init g n m)._evaluate x).1.length = m ∧
      0 ≤ ((MOTSP.init g n m)._evaluate x).1.getD k 0 := by
  have hshow : ((MOTSP.init g n m)._evaluate x).1
      = (List.range (MOTSP.init g n m).distances.length).map
          (fun i => (MOTSP.init g n m).total_distance x i) := rfl
  have hlen : (MOTSP.init g n m).distances.length = m := by simp [MOTSP.init]
  constructor
  · rw [hshow]
    simp [hlen]
  · rw [hshow, getD_map_range]
    split
    · exact init_total_distance_nonneg g n m x k
    · exact le_refl 0

/-- C8: evaluation is pure up to the spec's evaluation counter: one
evaluation step leaves the problem (its matrices and city count) unchanged,
increments the counter by exactly one, and its result depends only on the
problem and the individual — two states carrying the same problem produce
the same `(ObjectiveVector, ConstraintScore)`. -/
theorem evalStep_pure_frame (s t : EvalState) (x : List Nat)
    (h : t.problem = s.problem) :
    (evalStep s x).2.problem = s.problem ∧
      (evalStep s x).2.n_eval = s.n_eval + 1 ∧
      (evalStep t x).1 = (evalStep s x).1 := by
  refine ⟨rfl, rfl, ?_⟩
  show t.problem._evaluate x = s.problem._evaluate x
  rw [h]

/-- C8 witness: a concrete evaluation step on a 2-city problem. -/
theorem evalStep_pure_frame_witness :
    (evalStep ⟨MOTSP.mk 2 [], 0⟩ [0, 1]).2.problem = MOTSP.mk 2 [] ∧
      (evalStep ⟨MOTSP.mk 2 [], 0⟩ [0, 1]).2.n_eval = 0 + 1 ∧
      (evalStep ⟨MOTSP.mk 2 [], 0⟩ [0, 1]).1 = (evalStep ⟨MOTSP.mk 2 [], 0⟩ [0, 1]).1 :=
  evalStep_pure_frame ⟨MOTSP.mk 2 [], 0⟩ ⟨MOTSP.mk 2 [], 0⟩ [0, 1] rfl

/-- C10: non-domination extraction is idempotent — applied to the
already-extracted front it returns the front unchanged, since front members
are mutually non-dominated. -/
theorem nondomFront_idempotent (pop : List (List ℚ)) :
    nondomFront (nondomFront pop) = nondomFront pop := by
  apply List.filter_eq_self.mpr
  intro x hx
  simp only [nondomFront] at hx
  rw [List.mem_filter, Bool.not_eq_true', List.any_eq_false] at hx
  rw [Bool.not_eq_true', List.any_eq_false]
  intro y hy
  simp only [nondomFront] at hy
  exact hx.2 y (List.mem_filter.mp hy).1

/-! ## Determinism of the run -/

lemma stepState_period (g : Nat) : stepState (g + 2147483648) = stepState g := by
  unfold stepState
  omega

lemma iterState_period (g : Nat) :
    ∀ k, iterState (g + 2147483648) (k + 1) = iterState g (k + 1) := by
  intro k
  induction k with
  | zero => simpa [iterState] using stepState_period g
  | succ k ih =>
    calc iterState (g + 2147483648) (k + 1 + 1)
        = stepState (iterState (g + 2147483648) (k + 1)) := by simp [iterState]
      _ = stepState (iterState g (k + 1)) := by rw [ih]
      _ = iterState g (k + 1 + 1) := by simp [iterState]

lemma randAt_period (g k : Nat) : randAt (g + 2147483648) k = randAt g k := by
  unfold randAt
  rw [iterState_period]

lemma init_distances_period (g n m : Nat) :
    (MOTSP.init (g + 2147483648) n m).distances = (MOTSP.init g n m).distances := by
  have hf : (fun idx => symFromRaw (rawMat (g + 2147483648) n idx))
      = (fun idx => symFromRaw (rawMat g n idx)) := by
    funext idx
    have hm : rawMat (g + 2147483648) n idx = rawMat g n idx := by
      funext i j
      unfold rawMat
      exact randAt_period g _
    rw [hm]
  show (List.range m).map (fun idx => symFromRaw (rawMat (g + 2147483648) n idx))
      = (List.range m).map (fun idx => symFromRaw (rawMat g n idx))
  rw [hf]

attribute [local semireducible] Rat.add Rat.mul Rat.inv in
/-- C2 counterexample: two independent runs with the same seed (1) and the
same configuration (2 cities, 1 objective, population 1, 1 offspring,
crossover probability 9/10, 1 generation) but different ambient global
random states at problem construction produce different run outputs
(histories differ already at generation 0): `minimize`'s seed does not
govern the unseeded `np.random.rand` draws in `MOTSP.__init__`. -/
theorem fullRun_ambient_state_cex :
    fullRun 0 1 ⟨2, 1, 1, 1, 9/10, 1⟩ ≠ fullRun 1 1 ⟨2, 1, 1, 1, 9/10, 1⟩ := by
  decide

/-- C2 (amended): two runs that additionally share the problem
construction (identical distance matrices) and use the same seed and
configuration produce identical full generation histories and identical
final Pareto fronts. -/
theorem fullRun_same_construction_deterministic (g1 g2 seed : Nat) (cfg : Config)
    (h : (MOTSP.init g1 cfg.n_cities cfg.n_obj).distances
        = (MOTSP.init g2 cfg.n_cities cfg.n_obj).distances) :
    fullRun g1 seed cfg = fullRun g2 seed cfg := by
  unfold fullRun
  have hinit : MOTSP.init g1 cfg.n_cities cfg.n_obj = MOTSP.init g2 cfg.n_cities cfg.n_obj :=
    MOTSP.ext rfl h
  rw [hinit]

/-- C2 witness: two runs from the distinct ambient construction states
`0 + 2^31` and `0` — which generate identical distance matrices, because
the modelled stream state wraps modulo `2^31` after one step — coincide in
their whole history and final front. -/
theorem fullRun_same_construction_deterministic_witness :
    (MOTSP.init (0 + 2147483648) 2 1).distances = (MOTSP.init 0 2 1).distances ∧
      fullRun (0 + 2147483648) 1 ⟨2, 1, 1, 1, 9/10, 1⟩ = fullRun 0 1 ⟨2, 1, 1, 1, 9/10, 1⟩ :=
  ⟨init_distances_period 0 2 1,
    fullRun_same_construction_deterministic (0 + 2147483648) 0 1 ⟨2, 1, 1, 1, 9/10, 1⟩
      (init_distances_period 0 2 1)⟩
